import Mathlib

/-!
Verification of the visual-match alert bot (`src/app.py`) against its
natural-language specification.

The program polls marketplace sites, fingerprints candidate listing images
with a 64-bit perceptual hash, compares them to reference fingerprints by
Hamming distance, and posts a Discord alert for unseen matches, recording
every evaluated listing identity in a persisted ledger (`seen.json`).

This file is a shallow embedding of that program.  External effects
(HTTP responses, PIL image decoding, Playwright navigation and DOM
extraction, the Discord transport, the filesystem) are modelled as explicit
outcome values or oracle functions supplied to the embedded code; everything
the Python source itself computes (SHA-256 identities, the ledger and its
cap, the match loop, the per-site control flow, message formatting) is
translated directly.
-/

set_option maxRecDepth 8000

/-! ## Perceptual fingerprints

`imagehash.phash` produces a 64-bit hash; `h1 - h2` in the source is the
Hamming distance of the two 64-bit hashes.  A fingerprint is modelled as a
natural number whose 64 low bits carry the hash. -/

abbrev Fingerprint := Nat

/-- Hamming distance of two 64-bit perceptual hashes (`ph - rh` in app.py). -/
def hamming64 (a b : Fingerprint) : Nat :=
  ((List.range 64).filter (fun i => a.testBit i != b.testBit i)).length

/-! ## SHA-256 (hashlib.sha256)

`stable_id` in app.py is `hashlib.sha256(f"{site}|{url}".encode("utf-8")).hexdigest()[:24]`.
The hash is implemented here in full so that identities are the real ones. -/

def w32 : Nat := 4294967296

def rotr32 (k n : Nat) : Nat :=
  ((n >>> k) ||| (n <<< (32 - k))) % w32

def sha_k : List Nat :=
  [1116352408, 1899447441, 3049323471, 3921009573, 961987163, 1508970993,
   2453635748, 2870763221, 3624381080, 310598401, 607225278, 1426881987,
   1925078388, 2162078206, 2614888103, 3248222580, 3835390401, 4022224774,
   264347078, 604807628, 770255983, 1249150122, 1555081692, 1996064986,
   2554220882, 2821834349, 2952996808, 3210313671, 3336571891, 3584528711,
   113926993, 338241895, 666307205, 773529912, 1294757372, 1396182291,
   1695183700, 1986661051, 2177026350, 2456956037, 2730485921, 2820302411,
   3259730800, 3345764771, 3516065817, 3600352804, 4094571909, 275423344,
   430227734, 506948616, 659060556, 883997877, 958139571, 1322822218,
   1537002063, 1747873779, 1955562222, 2024104815, 2227730452, 2361852424,
   2428436474, 2756734187, 3204031479, 3329325298]

def sha_h0 : List Nat :=
  [1779033703, 3144134277, 1013904242, 2773480762,
   1359893119, 2600822924, 528734635, 1541459225]

/-- SHA-256 message padding: append 0x80, zero bytes, then the 64-bit
big-endian bit length. -/
def shaPad (msg : List Nat) : List Nat :=
  let L := msg.length
  let zeros := (64 - ((L + 9) % 64)) % 64
  let bitLen := 8 * L
  msg ++ [0x80] ++ List.replicate zeros 0 ++
    [(bitLen >>> 56) % 256, (bitLen >>> 48) % 256, (bitLen >>> 40) % 256, (bitLen >>> 32) % 256,
     (bitLen >>> 24) % 256, (bitLen >>> 16) % 256, (bitLen >>> 8) % 256, bitLen % 256]

def bytesToWords : List Nat → List Nat
  | b0 :: b1 :: b2 :: b3 :: rest => (((b0 * 256 + b1) * 256 + b2) * 256 + b3) :: bytesToWords rest
  | _ => []

/-- One step of the message-schedule extension.  The schedule is kept as a
reversed list (most recent word first), so w[i-2] is at index 1, w[i-7] at 6,
w[i-15] at 14 and w[i-16] at 15. -/
def shaExtendStep (r : List Nat) : List Nat :=
  let w15 := r.getD 14 0
  let w2 := r.getD 1 0
  let w7 := r.getD 6 0
  let w16 := r.getD 15 0
  let s0 := (rotr32 7 w15) ^^^ (rotr32 18 w15) ^^^ (w15 >>> 3)
  let s1 := (rotr32 17 w2) ^^^ (rotr32 19 w2) ^^^ (w2 >>> 10)
  ((w16 + s0 + w7 + s1) % w32) :: r

def shaExtendN : Nat → List Nat → List Nat
  | 0, r => r
  | n + 1, r => shaExtendN n (shaExtendStep r)

def shaCompressRound (st : List Nat) (kw : Nat × Nat) : List Nat :=
  match st with
  | [a, b, c, d, e, f, g, h] =>
    let S1 := (rotr32 6 e) ^^^ (rotr32 11 e) ^^^ (rotr32 25 e)
    let ch := (e &&& f) ^^^ (((w32 - 1) - e) &&& g)
    let temp1 := (h + S1 + ch + kw.1 + kw.2) % w32
    let S0 := (rotr32 2 a) ^^^ (rotr32 13 a) ^^^ (rotr32 22 a)
    let maj := (a &&& b) ^^^ (a &&& c) ^^^ (b &&& c)
    let temp2 := (S0 + maj) % w32
    [(temp1 + temp2) % w32, a, b, c, (d + temp1) % w32, e, f, g]
  | st => st

def shaBlock (h : List Nat) (block : List Nat) : List Nat :=
  let ws := (shaExtendN 48 (bytesToWords block).reverse).reverse
  let final := (sha_k.zip ws).foldl shaCompressRound h
  (h.zip final).map (fun p => (p.1 + p.2) % w32)

/-- Split a byte list into 64-byte chunks.  The fuel argument (the list
length suffices) keeps the recursion structural so the kernel can evaluate. -/
def chunksAux : Nat → List Nat → List (List Nat)
  | 0, _ => []
  | _, [] => []
  | n + 1, a :: rest => ((a :: rest).take 64) :: chunksAux n ((a :: rest).drop 64)

def chunks64 (l : List Nat) : List (List Nat) := chunksAux l.length l

def sha256Words (msg : List Nat) : List Nat :=
  (chunks64 (shaPad msg)).foldl shaBlock sha_h0

def hexDigit (n : Nat) : Char :=
  if n < 10 then Char.ofNat (48 + n) else Char.ofNat (87 + n)

def wordHex (n : Nat) : List Char :=
  [hexDigit ((n >>> 28) % 16), hexDigit ((n >>> 24) % 16), hexDigit ((n >>> 20) % 16),
   hexDigit ((n >>> 16) % 16), hexDigit ((n >>> 12) % 16), hexDigit ((n >>> 8) % 16),
   hexDigit ((n >>> 4) % 16), hexDigit (n % 16)]

/-- Full 64-character lowercase hex digest, as `hashlib...hexdigest()`. -/
def sha256_hexdigest (msg : List Nat) : String :=
  String.mk ((sha256Words msg).flatMap wordHex)

def utf8Char (c : Char) : List Nat :=
  let n := c.toNat
  if n < 0x80 then [n]
  else if n < 0x800 then [0xC0 ||| (n >>> 6), 0x80 ||| (n &&& 0x3F)]
  else if n < 0x10000 then [0xE0 ||| (n >>> 12), 0x80 ||| ((n >>> 6) &&& 0x3F), 0x80 ||| (n &&& 0x3F)]
  else [0xF0 ||| (n >>> 18), 0x80 ||| ((n >>> 12) &&& 0x3F), 0x80 ||| ((n >>> 6) &&& 0x3F),
        0x80 ||| (n &&& 0x3F)]

/-- UTF-8 encoding of a string (`str.encode("utf-8")`). -/
def utf8Encode (s : String) : List Nat :=
  s.data.flatMap utf8Char

/-- app.py `stable_id`: `hashlib.sha256(f"{site}|{url}".encode("utf-8")).hexdigest()[:24]`. -/
def stable_id (site url : String) : String :=
  (sha256_hexdigest (utf8Encode (site ++ "|" ++ url))).take 24

/-! ## Python string helpers

Python `str.lower()`, `str.endswith`, `str.strip()` and
`str.replace(" ", ...)` as used by app.py, written over character lists so
they stay kernel-computable.  `lower` is the ASCII case map (the extension
comparison only involves ASCII). -/

def pyLower (s : String) : String :=
  String.mk (s.data.map (fun c =>
    if 65 ≤ c.toNat ∧ c.toNat ≤ 90 then Char.ofNat (c.toNat + 32) else c))

def pyEndsWith (s suf : String) : Bool := suf.data.isSuffixOf s.data

def pyStrip (s : String) : String :=
  String.mk (((s.data.dropWhile Char.isWhitespace).reverse.dropWhile Char.isWhitespace).reverse)

def pyReplaceSpace (s rep : String) : String :=
  String.mk (s.data.flatMap (fun c => if c = ' ' then rep.data else [c]))

/-! ## Dedup ledger (seen.json) -/

/-- The hard-coded ledger cap from `save_seen`: `[-30000:]`. -/
def SEEN_CAP : Nat := 30000

/-- Relevant states of `seen.json` on disk for `load_seen`: the file is
absent, present but unparseable (json.load or set() raises), or parses to a
list of identity strings. -/
inductive FileRead where
  | absent : FileRead
  | corrupted (raw : String) : FileRead
  | parsed (ids : List String) : FileRead

/-- app.py `load_seen`: missing file gives an empty set, a parse failure is
caught and gives an empty set, otherwise the parsed entries as a set.  The
ledger set is modelled as a duplicate-free list in insertion order. -/
def load_seen : FileRead → List String
  | .absent => []
  | .corrupted _ => []
  | .parsed ids => ids.eraseDups

/-- app.py `save_seen`: persists `sorted(list(seen))[-30000:]`, i.e. the
ledger entries in sorted order with all but the 30000 lexicographically
largest dropped. -/
def save_seen (seen : List String) : List String :=
  let sortedSeen := seen.mergeSort (fun a b => decide (a ≤ b))
  sortedSeen.drop (sortedSeen.length - SEEN_CAP)

/-! ## Reference fingerprints -/

/-- One file in the reference directory: its name and the outcome of
`Image.open(path).convert("RGB")` plus `imagehash.phash` (an external
decoder, so modelled as an outcome). -/
structure RefFile where
  name : String
  decode : Except String Fingerprint

/-- The reference directory on disk: missing, or present with some files. -/
inductive RefDir where
  | missing : RefDir
  | present (files : List RefFile) : RefDir

/-- The extension filter of `load_reference_hashes`:
`name.lower().endswith((".png", ".jpg", ".jpeg", ".webp"))`. -/
def usableExt (name : String) : Bool :=
  [".png", ".jpg", ".jpeg", ".webp"].any (fun e => pyEndsWith (pyLower name) e)

/-- The body of the reference-loading loop: files with other extensions are
skipped by the `continue`, a decode failure is logged and skipped, a decoded
fingerprint is appended. -/
def refStep (acc : List Fingerprint) (f : RefFile) : List Fingerprint :=
  if usableExt f.name then
    match f.decode with
    | .ok h => acc ++ [h]
    | .error _ => acc
  else acc

/-- app.py `load_reference_hashes`: a missing directory raises, per-file
decode failures are logged and skipped, and zero collected hashes raises. -/
def load_reference_hashes : RefDir → Except String (List Fingerprint)
  | .missing => .error "Dossier reference_images introuvable. Cree-le et mets tes images dedans."
  | .present files =>
    let hashes := files.foldl refStep []
    if hashes.isEmpty then .error "Aucune image trouvee dans reference_images/"
    else .ok hashes

/-! ## Per-image fetch and decode -/

/-- Outcome of `session.get(url)` in `fetch_bytes`: an HTTP response with a
status and body bytes, or an exception (timeout included). -/
inductive FetchOutcome where
  | resp (status : Nat) (body : List Nat) : FetchOutcome
  | exn (msg : String) : FetchOutcome

/-- app.py `fetch_bytes`: None unless the request succeeds with status 200;
every exception is caught and becomes None. -/
def fetch_bytes (outcome : FetchOutcome) : Option (List Nat) :=
  match outcome with
  | .resp status body => if status ≠ 200 then none else some body
  | .exn _ => none

/-- Outcome of `Image.open(BytesIO(data)).convert("RGB")` plus
`imagehash.phash` inside `phash_from_bytes`. -/
inductive DecodeOutcome where
  | img (h : Fingerprint) : DecodeOutcome
  | fail (msg : String) : DecodeOutcome

/-- app.py `phash_from_bytes`: the fingerprint on a successful decode; every
exception is caught and becomes None. -/
def phash_from_bytes (decode : List Nat → DecodeOutcome) (data : List Nat) : Option Fingerprint :=
  match decode data with
  | .img h => some h
  | .fail _ => none

/-- app.py `is_match`: `any((candidate - r) <= threshold for r in refs)`. -/
def is_match (candidate : Fingerprint) (refs : List Fingerprint) (threshold : Nat) : Bool :=
  refs.any (fun r => decide (hamming64 candidate r ≤ threshold))

/-! ## Listings, events and the match loop of scan_once -/

structure Listing where
  site : String
  title : String
  url : String
  image_urls : List String
deriving DecidableEq

/-- Outcome of `s.post(webhook, ...)` in `discord_notify`. -/
inductive PostOutcome where
  | resp (status : Nat) (bodyText : String) : PostOutcome
  | exn (msg : String) : PostOutcome

/-- External collaborators consulted by the match loop: the HTTP client for
image bytes, the image decoder, and the Discord transport. -/
structure MatchEnv where
  net : String → FetchOutcome
  decode : List Nat → DecodeOutcome
  post : String → PostOutcome

/-- Observable effects of one pass, in order: an image-byte fetch issued for
a URL, the `[MATCH]` print, a message handed to the Discord transport, and
any other log line. -/
inductive Event where
  | fetch (url : String) : Event
  | matchFound (site title url imgUrl : String) (dist : Nat) : Event
  | sent (content : String) : Event
  | logline (msg : String) : Event
deriving DecidableEq

/-- In-memory state threaded through a pass: the seen set (duplicate-free,
in insertion order) and the effects emitted so far. -/
structure ScanState where
  seen : List String
  events : List Event
deriving DecidableEq

/-- The message body built in `discord_notify`. -/
def discord_content (lst : Listing) (imgUrl : String) (dist : Nat) : String :=
  "🚨 **MATCH IMAGE**\n**Site :** " ++ lst.site ++ "\n**Titre :** " ++ lst.title ++
    "\n**Distance :** " ++ toString dist ++ "\n" ++ lst.url ++ "\n" ++ imgUrl

/-- app.py `discord_notify`: with no webhook only a log line; otherwise the
full content is handed to the transport unmodified, a non-200/204 status is
logged (with the response body cut to 200 chars), and an exception is caught
and logged.  The function always returns; it never propagates a failure. -/
def discord_notify (post : String → PostOutcome) (webhook : String) (lst : Listing)
    (imgUrl : String) (dist : Nat) : List Event :=
  if webhook = "" then [.logline "[DISCORD] DISCORD_WEBHOOK manquant."]
  else
    let content := discord_content lst imgUrl dist
    match post content with
    | .resp status txt =>
      if status = 200 ∨ status = 204 then [.sent content]
      else [.sent content, .logline ("[DISCORD] error " ++ toString status ++ " " ++ txt.take 200)]
    | .exn e => [.sent content, .logline ("[DISCORD] exception: " ++ e)]

/-- Python truthiness of the fetched bytes: `if not data: continue` also
skips a 200 response with an empty body. -/
def truthyBytes : Option (List Nat) → Option (List Nat)
  | some (b :: bs) => some (b :: bs)
  | _ => none

/-- The per-image pipeline of the match loop: fetch the bytes (skipping
falsy results) and decode them to a fingerprint. -/
def candHash (env : MatchEnv) (imgUrl : String) : Option Fingerprint :=
  match truthyBytes (fetch_bytes (env.net imgUrl)) with
  | none => none
  | some data => phash_from_bytes env.decode data

/-- Running best distance and its source image URL
(`best_dist = 999`, `best_img = None` initially). -/
structure MatchAcc where
  best_dist : Nat
  best_img : Option String
deriving DecidableEq

/-- The inner reference loop of scan_once: for each reference hash update
the running best on a strictly smaller distance. -/
def updateBest (refs : List Fingerprint) (ph : Fingerprint) (imgUrl : String)
    (acc : MatchAcc) : MatchAcc :=
  refs.foldl (fun a rh =>
    if hamming64 ph rh < a.best_dist then ⟨hamming64 ph rh, some imgUrl⟩ else a) acc

/-- One candidate image of the match loop: a failed fetch or decode leaves
the accumulator unchanged (`continue`). -/
def checkImage (env : MatchEnv) (refs : List Fingerprint) (acc : MatchAcc)
    (imgUrl : String) : MatchAcc :=
  match candHash env imgUrl with
  | none => acc
  | some ph => updateBest refs ph imgUrl acc

/-- The whole candidate loop of scan_once over `lst.image_urls[:3]`. -/
def checkImages (env : MatchEnv) (refs : List Fingerprint) (imageUrls : List String) : MatchAcc :=
  (imageUrls.take 3).foldl (checkImage env refs) ⟨999, none⟩

/-- The per-listing body of scan_once: skip entirely when the identity is in
the seen set; otherwise fetch up to the first three images, track the best
distance over all references, alert if `best_img is not None and
best_dist <= threshold`, and add the identity to the seen set whether or not
it matched. -/
def processListing (env : MatchEnv) (webhook : String) (threshold : Nat)
    (refs : List Fingerprint) (st : ScanState) (lst : Listing) : ScanState :=
  let uid := stable_id lst.site lst.url
  if uid ∈ st.seen then st
  else
    let fetchEvents := (lst.image_urls.take 3).map Event.fetch
    let acc := checkImages env refs lst.image_urls
    let newEvents :=
      match acc.best_img with
      | some imgUrl =>
        if acc.best_dist ≤ threshold then
          Event.matchFound lst.site lst.title lst.url imgUrl acc.best_dist ::
            discord_notify env.post webhook lst imgUrl acc.best_dist
        else []
      | none => []
    { seen := st.seen ++ [uid], events := st.events ++ fetchEvents ++ newEvents }

/-! ## Site adapters and the scan pass -/

/-- The six scraper invocations of scan_once, in source order; carousell is
one invocation per configured domain. -/
inductive SiteKey where
  | mercari_jp : SiteKey
  | mercari_us : SiteKey
  | bunjang_global : SiteKey
  | carousell (domain : String) : SiteKey
  | zozoused : SiteKey
  | grailed : SiteKey
deriving DecidableEq

/-- The configuration surface read by scan_once and main, with the defaults
of `cfg.get(...)` already applied and the webhook resolved from the
environment variable or the config fallback. -/
structure Config where
  phash_distance_threshold : Nat
  max_items_per_site : Nat
  sites_enabled : List (String × Bool)
  queries : List String
  carousell_domains : List String
  discord_webhook : String

/-- `enabled.get(key, True)`: a site is enabled unless its flag is present
and false. -/
def Config.enabledFlag (cfg : Config) (key : String) : Bool :=
  match cfg.sites_enabled.lookup key with
  | some b => b
  | none => true

/-- The ordered site invocations of one query in scan_once. -/
def siteCalls (cfg : Config) : List SiteKey :=
  (if cfg.enabledFlag "mercari_jp" then [SiteKey.mercari_jp] else []) ++
  (if cfg.enabledFlag "mercari_us" then [SiteKey.mercari_us] else []) ++
  (if cfg.enabledFlag "bunjang_global" then [SiteKey.bunjang_global] else []) ++
  (if cfg.enabledFlag "carousell" then cfg.carousell_domains.map SiteKey.carousell else []) ++
  (if cfg.enabledFlag "zozoused" then [SiteKey.zozoused] else []) ++
  (if cfg.enabledFlag "grailed" then [SiteKey.grailed] else [])

/-- The `listings += await scrape_...` sequence of one query.  The awaits
are sequential and none is wrapped in a try/except, so the first raising
scraper aborts the whole sequence and the accumulated listings are lost. -/
def gatherListings (scrape : SiteKey → String → Except String (List Listing))
    (calls : List SiteKey) (q : String) : Except String (List Listing) :=
  calls.foldlM (fun acc s => do
    let l ← scrape s q
    pure (acc ++ l)) []

/-- One query of scan_once: gather the listings of every enabled site, then
run the match loop over them.  An exception from any scraper propagates. -/
def runQuery (scrape : SiteKey → String → Except String (List Listing)) (env : MatchEnv)
    (cfg : Config) (refs : List Fingerprint) (st : ScanState) (q : String) :
    Except String ScanState := do
  let listings ← gatherListings scrape (siteCalls cfg) q
  pure (listings.foldl
    (processListing env cfg.discord_webhook cfg.phash_distance_threshold refs) st)

/-- The query loop of scan_once: blank queries are skipped
(`q = q.strip(); if not q: continue`); the first exception aborts the loop,
returning the state as it was before the failing query together with the
error. -/
def scanQueries (scrape : SiteKey → String → Except String (List Listing)) (env : MatchEnv)
    (cfg : Config) (refs : List Fingerprint) : List String → ScanState → ScanState × Option String
  | [], st => (st, none)
  | q :: qs, st =>
    let qt := pyStrip q
    if qt = "" then scanQueries scrape env cfg refs qs st
    else
      match runQuery scrape env cfg refs st qt with
      | .ok st2 => scanQueries scrape env cfg refs qs st2
      | .error e => (st, some e)

/-- Result of one scan pass: the in-memory state (the Python `seen` set is
mutated in place, so it survives an aborted pass), the propagated error if
any, and the ledger contents written by `save_seen` — which runs only when
the pass completes without an exception. -/
structure ScanResult where
  state : ScanState
  failure : Option String
  persisted : Option (List String)

/-- app.py `scan_once` for one pass, starting from the loaded seen set. -/
def scan_once (scrape : SiteKey → String → Except String (List Listing)) (env : MatchEnv)
    (cfg : Config) (refs : List Fingerprint) (seen0 : List String) : ScanResult :=
  let r := scanQueries scrape env cfg refs cfg.queries ⟨seen0, []⟩
  match r.2 with
  | none => ⟨r.1, none, some (save_seen r.1.seen)⟩
  | some e => ⟨r.1, some e, none⟩

/-- One iteration of the `while True` loop in `main`: scan_once inside a
try/except that prints `[ERREUR]` and continues.  The returned state seeds
the next pass; the second component is what reached disk. -/
def main_iter (scrape : SiteKey → String → Except String (List Listing)) (env : MatchEnv)
    (cfg : Config) (refs : List Fingerprint) (seen0 : List String) :
    ScanState × Option (List String) :=
  let r := scan_once scrape env cfg refs seen0
  match r.failure with
  | none => (r.state, r.persisted)
  | some e => ({ r.state with events := r.state.events ++ [.logline ("[ERREUR] " ++ e)] }, none)

/-! ## Scrapers (navigation layer)

Each scraper builds its search URL, performs exactly one `page.goto` (no
retry, no backoff, no code-level timeout argument) and then extracts
listings from the rendered DOM.  The DOM querying is an external
collaborator (out of scope per the spec), abstracted as `Browser.dom`; the
navigation outcome is `Browser.nav`.  Each scraper also reports its
navigation attempts so that the retry policy is observable. -/

structure Browser where
  nav : String → Except String Unit
  dom : String → List Listing

inductive NavEvent where
  | goto (url : String) : NavEvent
deriving DecidableEq

def grailed_search_url (q : String) : String :=
  "https://www.grailed.com/shop?query=" ++ q

def mercari_us_search_url (q : String) : String :=
  "https://www.mercari.com/search/?keyword=" ++ q

def mercari_jp_search_url (q : String) : String :=
  "https://jp.mercari.com/search?keyword=" ++ q

def bunjang_search_url (q : String) : String :=
  "https://globalbunjang.com/search?q=" ++ q

def carousell_search_url (domain q : String) : String :=
  "https://" ++ domain ++ "/" ++ pyReplaceSpace (pyStrip q) "%20" ++ "/q/"

def zozo_search_url (q : String) : String :=
  "https://zozo.jp/search/?p_keyv=" ++ pyReplaceSpace (pyStrip q) "%20" ++ "&p_gtype=2"

/-- Shared shape of the six scrapers: one navigation, then extraction
capped at `limit` listings.  A failed navigation propagates the exception. -/
def scrape_site (b : Browser) (searchUrl : String) (limit : Nat) :
    List NavEvent × Except String (List Listing) :=
  ([NavEvent.goto searchUrl],
    match b.nav searchUrl with
    | .error e => .error e
    | .ok _ => .ok ((b.dom searchUrl).take limit))

def scrape_grailed (b : Browser) (q : String) (limit : Nat) :
    List NavEvent × Except String (List Listing) :=
  scrape_site b (grailed_search_url q) limit

def scrape_mercari_us (b : Browser) (q : String) (limit : Nat) :
    List NavEvent × Except String (List Listing) :=
  scrape_site b (mercari_us_search_url q) limit

def scrape_mercari_jp (b : Browser) (q : String) (limit : Nat) :
    List NavEvent × Except String (List Listing) :=
  scrape_site b (mercari_jp_search_url q) limit

def scrape_bunjang_global (b : Browser) (q : String) (limit : Nat) :
    List NavEvent × Except String (List Listing) :=
  scrape_site b (bunjang_search_url q) limit

def scrape_carousell (b : Browser) (domain q : String) (limit : Nat) :
    List NavEvent × Except String (List Listing) :=
  scrape_site b (carousell_search_url domain q) limit

def scrape_zozoused (b : Browser) (q : String) (limit : Nat) :
    List NavEvent × Except String (List Listing) :=
  scrape_site b (zozo_search_url q) limit

/-- The carousell per-domain limit of scan_once:
`max(8, limit // max(1, len(carousell_domains)))`. -/
def carousellPerDomain (cfg : Config) : Nat :=
  max 8 (cfg.max_items_per_site / max 1 cfg.carousell_domains.length)

/-- The scraper dispatch of scan_once over a concrete browser. -/
def scrapeOf (b : Browser) (cfg : Config) : SiteKey → String → Except String (List Listing)
  | .mercari_jp, q => (scrape_mercari_jp b q cfg.max_items_per_site).2
  | .mercari_us, q => (scrape_mercari_us b q cfg.max_items_per_site).2
  | .bunjang_global, q => (scrape_bunjang_global b q cfg.max_items_per_site).2
  | .carousell d, q => (scrape_carousell b d q (carousellPerDomain cfg)).2
  | .zozoused, q => (scrape_zozoused b q cfg.max_items_per_site).2
  | .grailed, q => (scrape_grailed b q cfg.max_items_per_site).2

/-! ## Concrete fixtures used by witnesses and counterexamples -/

/-- Listing whose URL alone is 2000 characters; its alert message exceeds
the Discord 2000-character content limit. -/
def longUrlListing : Listing :=
  ⟨"Grailed", "t", String.mk (List.replicate 2000 'u'), ["https://img.example/1"]⟩

/-- Three-candidate fetch oracle: each of the three image URLs returns a
distinct one-byte body with status 200. -/
def c4net : String → FetchOutcome := fun u =>
  if u = "https://a/1" then FetchOutcome.resp 200 [1]
  else if u = "https://a/2" then FetchOutcome.resp 200 [2]
  else if u = "https://a/3" then FetchOutcome.resp 200 [3]
  else FetchOutcome.exn "unknown url"

/-- Decoder giving the three bodies fingerprints at Hamming distance 12, 5
and 9 from the all-zero reference fingerprint. -/
def c4decode : List Nat → DecodeOutcome := fun b =>
  if b = [1] then DecodeOutcome.img 4095
  else if b = [2] then DecodeOutcome.img 31
  else if b = [3] then DecodeOutcome.img 511
  else DecodeOutcome.fail "undecodable"

def c4env : MatchEnv := ⟨c4net, c4decode, fun _ => PostOutcome.resp 204 ""⟩

/-- The `[MATCH]` print of scan_once, as an event filter. -/
def isAlertEvent : Event → Bool
  | .matchFound _ _ _ _ _ => true
  | _ => false

/-- Listing carrying the three candidate image URLs of `c4net`. -/
def threeImgListing : Listing :=
  ⟨"Grailed", "tee", "https://g/5", ["https://a/1", "https://a/2", "https://a/3"]⟩

/-- Listing with no candidate images at all. -/
def noImgListing : Listing := ⟨"Grailed", "tee", "https://g/6", []⟩

/-- Configuration with defaults, one query and no carousell domains. -/
def passCfg : Config := ⟨8, 25, [], ["tee"], [], "https://hook"⟩

/-- Scraper oracle where mercari_us raises while grailed would return a
matching listing. -/
def failingUsScrape : SiteKey → String → Except String (List Listing)
  | SiteKey.mercari_us, _ => Except.error "mercari_us: markup changed"
  | SiteKey.grailed, _ => Except.ok [threeImgListing]
  | _, _ => Except.ok []

/-- Browser whose mercari_jp navigation times out while every other
navigation succeeds, and whose grailed page holds a matching listing. -/
def timeoutJpBrowser : Browser :=
  ⟨fun u => if u = mercari_jp_search_url "tee" then Except.error "net::ERR_TIMED_OUT"
    else Except.ok (),
   fun u => if u = grailed_search_url "tee" then [threeImgListing] else []⟩

/-- The i-th of 30001 distinct ledger identities: the string of i + 1
letters "a".  These are lexicographically increasing in i, so inserting them
in decreasing order of i makes insertion order the exact reverse of sorted
order. -/
def idOfLen (i : Nat) : String := String.mk (List.replicate (i + 1) 'a')

/-- All 30001 identities in lexicographically sorted order. -/
def sortedLedger : List String := (List.range 30001).map idOfLen

/-- The same identities in insertion order (index 0 was inserted first):
the longest string was inserted first (oldest) and the empty string last
(newest) — SEEN_CAP + 1 insertions in total. -/
def insertionLedger : List String := sortedLedger.reverse

/-! ## Sanity check of the SHA-256 embedding -/

/-- NIST test vector for SHA-256 of the ASCII string "abc"; it pins the
hash implementation backing `stable_id` to the real hashlib.sha256. -/
theorem sha256_test_vector :
    sha256_hexdigest (utf8Encode "abc") =
      "ba7816bf8f01cfea414140de5dae2223b00361a396177a9cb410ff61f20015ad" := by
  decide

/-! ## Helper lemmas: separator parsing for stable_id -/

lemma pipe_split_chars (l1 : List Char) :
    ∀ (l2 r1 r2 : List Char), '|' ∉ l1 → '|' ∉ l2 →
      l1 ++ '|' :: r1 = l2 ++ '|' :: r2 → l1 = l2 ∧ r1 = r2 := by
  induction l1 with
  | nil =>
    intro l2 r1 r2 _ h2 h
    cases l2 with
    | nil => simpa using h
    | cons b bs =>
      simp only [List.nil_append, List.cons_append, List.cons.injEq] at h
      have : ('|' : Char) ∈ b :: bs := by
        rw [h.1]
        exact List.mem_cons_self b bs
      exact absurd this h2
  | cons a as ih =>
    intro l2 r1 r2 h1 h2 h
    cases l2 with
    | nil =>
      simp only [List.cons_append, List.nil_append, List.cons.injEq] at h
      have : ('|' : Char) ∈ a :: as := by
        rw [← h.1]
        exact List.mem_cons_self a as
      exact absurd this h1
    | cons b bs =>
      simp only [List.cons_append, List.cons.injEq] at h
      have hrec := ih bs r1 r2 (fun hm => h1 (List.mem_cons_of_mem a hm))
        (fun hm => h2 (List.mem_cons_of_mem b hm)) h.2
      exact ⟨by rw [h.1, hrec.1], hrec.2⟩

lemma string_data_append (s t : String) : (s ++ t).data = s.data ++ t.data := by
  cases s; cases t; rfl

lemma string_length_append (s t : String) : (s ++ t).length = s.length + t.length := by
  show (s ++ t).data.length = s.data.length + t.data.length
  rw [string_data_append, List.length_append]

lemma pipe_split_strings (site url site2 url2 : String)
    (h1 : '|' ∉ site.data) (h2 : '|' ∉ site2.data)
    (h : site ++ "|" ++ url = site2 ++ "|" ++ url2) : site = site2 ∧ url = url2 := by
  have hd : site.data ++ '|' :: url.data = site2.data ++ '|' :: url2.data := by
    have := congrArg String.data h
    simpa [string_data_append] using this
  have hsplit := pipe_split_chars site.data site2.data url.data url2.data h1 h2 hd
  refine ⟨?_, ?_⟩
  · cases site with
    | mk d1 => cases site2 with
      | mk d2 => exact congrArg String.mk hsplit.1
  · cases url with
    | mk d1 => cases url2 with
      | mk d2 => exact congrArg String.mk hsplit.2

/-! ## C6: listing identity -/

/-- C6 (amended): `stable_id` is deterministic (equal `(site, url)` inputs
give equal identities), and the serialized digest preimage `site ++ "|" ++
url` is injective over pairs whose site tag contains no `'|'` character
(true of every site tag this program uses), so distinct such pairs collide
only if the truncated SHA-256 digest itself collides.  Without that
restriction the claim is false: the separator encoding is ambiguous (see the
counterexample). -/
theorem stable_id_deterministic_and_preimage_injective :
    (∀ site url site2 url2 : String, site = site2 → url = url2 →
        stable_id site url = stable_id site2 url2) ∧
    (∀ site url site2 url2 : String, '|' ∉ site.data → '|' ∉ site2.data →
        site ++ "|" ++ url = site2 ++ "|" ++ url2 → site = site2 ∧ url = url2) := by
  constructor
  · intro site url site2 url2 hs hu
    rw [hs, hu]
  · exact pipe_split_strings

/-- Witness for C6 at concrete inputs: the real site tag "Grailed" is
pipe-free, and the theorem applies. -/
theorem stable_id_deterministic_and_preimage_injective_witness :
    stable_id "Grailed" "https://g/1" = stable_id "Grailed" "https://g/1" ∧
    ("Grailed" : String) = "Grailed" ∧ ("https://g/1" : String) = "https://g/1" := by
  refine ⟨stable_id_deterministic_and_preimage_injective.1 _ _ _ _ rfl rfl, ?_⟩
  exact ⟨(stable_id_deterministic_and_preimage_injective.2 "Grailed" "https://g/1"
    "Grailed" "https://g/1" (by decide) (by decide) rfl).1,
    (stable_id_deterministic_and_preimage_injective.2 "Grailed" "https://g/1"
    "Grailed" "https://g/1" (by decide) (by decide) rfl).2⟩

/-- Counterexample for C6 as stated: the distinct pairs ("a|b", "c") and
("a", "b|c") serialize to the same string "a|b|c", so `stable_id` maps them
to the same identity with certainty — not with cryptographically negligible
probability. -/
theorem stable_id_collision_of_distinct_pairs :
    stable_id "a|b" "c" = stable_id "a" "b|c" ∧
    (("a|b", "c") : String × String) ≠ ("a", "b|c") := by
  exact ⟨rfl, by decide⟩

/-! ## C10: totality of the per-image helpers -/

/-- C10: `fetch_bytes` returns the body exactly when the request succeeded
with status 200, and None on any other status or any exception;
`phash_from_bytes` returns a fingerprint exactly when the decoder succeeded,
and None on any decode failure; both are total functions into Option, and a
candidate image whose pipeline fails leaves the match accumulator untouched,
so each per-image failure is contained to that image. -/
theorem fetch_and_phash_total :
    (∀ (o : FetchOutcome) (b : List Nat), fetch_bytes o = some b ↔ o = FetchOutcome.resp 200 b) ∧
    (∀ m : String, fetch_bytes (FetchOutcome.exn m) = none) ∧
    (∀ (s : Nat) (b : List Nat), s ≠ 200 → fetch_bytes (FetchOutcome.resp s b) = none) ∧
    (∀ (dec : List Nat → DecodeOutcome) (data : List Nat) (h : Fingerprint),
        phash_from_bytes dec data = some h ↔ dec data = DecodeOutcome.img h) ∧
    (∀ (dec : List Nat → DecodeOutcome) (data : List Nat) (m : String),
        dec data = DecodeOutcome.fail m → phash_from_bytes dec data = none) ∧
    (∀ (env : MatchEnv) (refs : List Fingerprint) (acc : MatchAcc) (u : String),
        candHash env u = none → checkImage env refs acc u = acc) := by
  refine ⟨?_, ?_, ?_, ?_, ?_, ?_⟩
  · intro o b
    cases o with
    | resp s body =>
      by_cases hs : s = 200
      · subst hs
        simp [fetch_bytes]
      · simp [fetch_bytes, hs, Ne.symm hs]
    | exn m => simp [fetch_bytes]
  · intro m
    rfl
  · intro s b hs
    simp [fetch_bytes, hs]
  · intro dec data h
    cases hdec : dec data with
    | img x => simp [phash_from_bytes, hdec]
    | fail m => simp [phash_from_bytes, hdec]
  · intro dec data m hm
    simp [phash_from_bytes, hm]
  · intro env refs acc u hnone
    simp [checkImage, hnone]

/-- Witness for C10 at concrete outcomes: a 404 response, a timeout
exception and a decode failure all yield None, and a failing candidate
leaves the accumulator unchanged. -/
theorem fetch_and_phash_total_witness :
    fetch_bytes (FetchOutcome.resp 404 [7]) = none ∧
    fetch_bytes (FetchOutcome.exn "timeout") = none ∧
    phash_from_bytes (fun _ => DecodeOutcome.fail "not an image") [1, 2] = none ∧
    checkImage
      ⟨fun _ => FetchOutcome.exn "timeout", fun _ => DecodeOutcome.fail "x",
        fun _ => PostOutcome.exn "x"⟩ [0] ⟨999, none⟩ "http://img" = ⟨999, none⟩ := by
  refine ⟨fetch_and_phash_total.2.2.1 404 [7] (by decide),
    fetch_and_phash_total.2.1 "timeout",
    fetch_and_phash_total.2.2.2.2.1 _ [1, 2] "not an image" rfl,
    fetch_and_phash_total.2.2.2.2.2 _ [0] ⟨999, none⟩ "http://img" rfl⟩

/-! ## Helper lemmas: the reference-loading fold -/

lemma refStep_sub (acc : List Fingerprint) (f : RefFile) : ∀ x ∈ acc, x ∈ refStep acc f := by
  intro x hx
  unfold refStep
  by_cases hu : usableExt f.name
  · cases hd : f.decode with
    | ok h => simp [hu, hd, hx]
    | error e => simp [hu, hd, hx]
  · simp [hu, hx]

lemma foldl_refStep_sub (files : List RefFile) :
    ∀ (acc : List Fingerprint), ∀ x ∈ acc, x ∈ files.foldl refStep acc := by
  induction files with
  | nil => intro acc x hx; simpa using hx
  | cons f fs ih =>
    intro acc x hx
    exact ih (refStep acc f) x (refStep_sub acc f x hx)

lemma foldl_refStep_mem (files : List RefFile) (f : RefFile) (hf : f ∈ files)
    (hu : usableExt f.name = true) (hsh : Fingerprint) (hd : f.decode = Except.ok hsh) :
    ∀ acc : List Fingerprint, hsh ∈ files.foldl refStep acc := by
  induction files with
  | nil => cases hf
  | cons g gs ih =>
    intro acc
    rcases List.mem_cons.mp hf with hEq | hMem
    · subst hEq
      have : hsh ∈ refStep acc f := by simp [refStep, hu, hd]
      exact foldl_refStep_sub gs (refStep acc f) hsh this
    · exact ih hMem (refStep acc g)

lemma foldl_refStep_nil (files : List RefFile)
    (h : ∀ f ∈ files, usableExt f.name = false ∨ ∃ e, f.decode = Except.error e) :
    ∀ acc : List Fingerprint, files.foldl refStep acc = acc := by
  induction files with
  | nil => intro acc; rfl
  | cons f fs ih =>
    intro acc
    have hstep : refStep acc f = acc := by
      rcases h f (List.mem_cons_self f fs) with hu | ⟨e, he⟩
      · simp [refStep, hu]
      · unfold refStep
        by_cases hu : usableExt f.name
        · simp [hu, he]
        · simp [hu]
    rw [List.foldl_cons, hstep]
    exact ih (fun g hg => h g (List.mem_cons_of_mem f hg)) acc

/-! ## C8: fail-open ledger load, fatal reference load -/

/-- C8: a corrupted or absent seen.json loads as an empty ledger without
raising; a missing reference directory is a fatal error; a directory with no
usable decodable image is a fatal error; and a single per-file decode
failure is not fatal — any usable file that decodes makes the load succeed
with its fingerprint included. -/
theorem ledger_fail_open_reference_load_fatal :
    (∀ raw : String, load_seen (FileRead.corrupted raw) = []) ∧
    load_seen FileRead.absent = [] ∧
    (∃ e, load_reference_hashes RefDir.missing = Except.error e) ∧
    (∀ files : List RefFile,
        (∀ f ∈ files, usableExt f.name = false ∨ ∃ e, f.decode = Except.error e) →
        ∃ e, load_reference_hashes (RefDir.present files) = Except.error e) ∧
    (∀ (files : List RefFile) (f : RefFile), f ∈ files → usableExt f.name = true →
        ∀ hsh : Fingerprint, f.decode = Except.ok hsh →
        ∃ hs, load_reference_hashes (RefDir.present files) = Except.ok hs ∧ hsh ∈ hs) := by
  refine ⟨fun _ => rfl, rfl, ⟨_, rfl⟩, ?_, ?_⟩
  · intro files h
    have hnil : files.foldl refStep [] = [] := foldl_refStep_nil files h []
    exact ⟨"Aucune image trouvee dans reference_images/", by simp [load_reference_hashes, hnil]⟩
  · intro files f hf hu hsh hd
    have hmem : hsh ∈ files.foldl refStep [] := foldl_refStep_mem files f hf hu hsh hd []
    have hne : (files.foldl refStep []).isEmpty = false := by
      cases hfold : files.foldl refStep [] with
      | nil => rw [hfold] at hmem; cases hmem
      | cons a l => rfl
    refine ⟨files.foldl refStep [], ?_, hmem⟩
    simp [load_reference_hashes, hne]

/-- Witness for C8 at a concrete directory: one unusable file, one usable
file that fails to decode, one usable file that decodes; the load succeeds
and contains the decoded fingerprint.  Also the all-failing directory is
fatal. -/
theorem ledger_fail_open_reference_load_fatal_witness :
    load_seen (FileRead.corrupted "not json at all") = [] ∧
    (∃ hs, load_reference_hashes (RefDir.present
      [⟨"notes.txt", Except.ok 5⟩, ⟨"bad.png", Except.error "decode"⟩,
       ⟨"good.JPG", Except.ok 42⟩]) = Except.ok hs ∧ (42 : Fingerprint) ∈ hs) ∧
    (∃ e, load_reference_hashes (RefDir.present
      [⟨"notes.txt", Except.ok 5⟩, ⟨"bad.png", Except.error "decode"⟩]) = Except.error e) := by
  refine ⟨ledger_fail_open_reference_load_fatal.1 "not json at all", ?_, ?_⟩
  · exact ledger_fail_open_reference_load_fatal.2.2.2.2 _ ⟨"good.JPG", Except.ok 42⟩
      (List.mem_cons_of_mem _ (List.mem_cons_of_mem _ (List.mem_cons_self _ _)))
      (by decide) 42 rfl
  · refine ledger_fail_open_reference_load_fatal.2.2.2.1 _ ?_
    intro f hf
    rcases List.mem_cons.mp hf with hEq | hMem
    · subst hEq; left; decide
    · rcases List.mem_cons.mp hMem with hEq | hMem2
      · subst hEq; right; exact ⟨"decode", rfl⟩
      · cases hMem2

/-! ## C9: notifier -/

/-- C9 (amended): `discord_notify` hands the formatted message to the
transport verbatim — there is no truncation of the outgoing content to any
transport limit (only the logged error-response body is cut, to 200 chars) —
and every transport failure (non-200/204 status or exception) is recorded as
a log line while the function still returns normally, so notification
failure never propagates. -/
theorem discord_notify_verbatim_and_nonfatal :
    (∀ (post : String → PostOutcome) (webhook : String) (lst : Listing)
        (imgUrl : String) (dist : Nat), webhook ≠ "" →
      (discord_notify post webhook lst imgUrl dist).head? =
        some (Event.sent (discord_content lst imgUrl dist))) ∧
    (∀ (post : String → PostOutcome) (lst : Listing) (imgUrl : String) (dist : Nat),
      discord_notify post "" lst imgUrl dist =
        [Event.logline "[DISCORD] DISCORD_WEBHOOK manquant."]) ∧
    (∀ (post : String → PostOutcome) (webhook : String) (lst : Listing)
        (imgUrl : String) (dist : Nat) (s : Nat) (txt : String), webhook ≠ "" →
      post (discord_content lst imgUrl dist) = PostOutcome.resp s txt → ¬(s = 200 ∨ s = 204) →
      discord_notify post webhook lst imgUrl dist =
        [Event.sent (discord_content lst imgUrl dist),
         Event.logline ("[DISCORD] error " ++ toString s ++ " " ++ txt.take 200)]) ∧
    (∀ (post : String → PostOutcome) (webhook : String) (lst : Listing)
        (imgUrl : String) (dist : Nat) (e : String), webhook ≠ "" →
      post (discord_content lst imgUrl dist) = PostOutcome.exn e →
      discord_notify post webhook lst imgUrl dist =
        [Event.sent (discord_content lst imgUrl dist),
         Event.logline ("[DISCORD] exception: " ++ e)]) := by
  refine ⟨?_, ?_, ?_, ?_⟩
  · intro post webhook lst imgUrl dist hw
    unfold discord_notify
    rw [if_neg hw]
    cases hpost : post (discord_content lst imgUrl dist) with
    | resp s txt =>
      by_cases hs : s = 200 ∨ s = 204
      · simp [hpost, hs]
      · simp [hpost, hs]
    | exn e => simp [hpost]
  · intro post lst imgUrl dist
    rfl
  · intro post webhook lst imgUrl dist s txt hw hpost hs
    unfold discord_notify
    rw [if_neg hw]
    simp only [hpost]
    rw [if_neg hs]
  · intro post webhook lst imgUrl dist e hw hpost
    unfold discord_notify
    rw [if_neg hw]
    simp only [hpost]

/-- Witness for C9 at concrete transports: a 500 status and an exception are
both logged after the verbatim send, and an empty webhook only logs. -/
theorem discord_notify_verbatim_and_nonfatal_witness :
    discord_notify (fun _ => PostOutcome.resp 500 "err") "https://hook" ⟨"s", "t", "u", []⟩ "i" 3 =
      [Event.sent (discord_content ⟨"s", "t", "u", []⟩ "i" 3),
       Event.logline ("[DISCORD] error 500 err")] ∧
    discord_notify (fun _ => PostOutcome.exn "boom") "https://hook" ⟨"s", "t", "u", []⟩ "i" 3 =
      [Event.sent (discord_content ⟨"s", "t", "u", []⟩ "i" 3),
       Event.logline "[DISCORD] exception: boom"] ∧
    (discord_notify (fun _ => PostOutcome.resp 204 "") "https://hook"
        ⟨"s", "t", "u", []⟩ "i" 3).head? = some (Event.sent (discord_content ⟨"s", "t", "u", []⟩ "i" 3)) := by
  refine ⟨?_, ?_, ?_⟩
  · have := discord_notify_verbatim_and_nonfatal.2.2.1 (fun _ => PostOutcome.resp 500 "err")
      "https://hook" ⟨"s", "t", "u", []⟩ "i" 3 500 "err" (by decide) rfl (by decide)
    simpa using this
  · exact discord_notify_verbatim_and_nonfatal.2.2.2 (fun _ => PostOutcome.exn "boom")
      "https://hook" ⟨"s", "t", "u", []⟩ "i" 3 "boom" (by decide) rfl
  · exact discord_notify_verbatim_and_nonfatal.1 (fun _ => PostOutcome.resp 204 "")
      "https://hook" ⟨"s", "t", "u", []⟩ "i" 3 (by decide)

/-- Counterexample for C9 as stated: the alert for `longUrlListing` is 2049
characters, above the transport's 2000-character limit, and it is handed to
the transport verbatim — no truncation to the limit happens before sending. -/
theorem discord_notify_no_truncation :
    discord_notify (fun _ => PostOutcome.resp 204 "") "https://discord.example/hook"
        longUrlListing "https://img.example/1" 5 =
      [Event.sent (discord_content longUrlListing "https://img.example/1" 5)] ∧
    2000 < (discord_content longUrlListing "https://img.example/1" 5).length := by
  constructor
  · rfl
  · have hlen : (String.mk (List.replicate 2000 'u')).length = 2000 := by
      show (List.replicate 2000 'u').length = 2000
      exact List.length_replicate 2000 'u'
    have hsite : 0 < ("Grailed" : String).length := by decide
    simp only [discord_content, longUrlListing, string_length_append, hlen]
    omega

/-! ## Helper lemmas: the per-listing body -/

lemma processListing_skip (env : MatchEnv) (webhook : String) (threshold : Nat)
    (refs : List Fingerprint) (st : ScanState) (lst : Listing)
    (hmem : stable_id lst.site lst.url ∈ st.seen) :
    processListing env webhook threshold refs st lst = st := by
  unfold processListing
  simp [hmem]

lemma processListing_marks (env : MatchEnv) (webhook : String) (threshold : Nat)
    (refs : List Fingerprint) (st : ScanState) (lst : Listing) :
    stable_id lst.site lst.url ∈ (processListing env webhook threshold refs st lst).seen := by
  unfold processListing
  by_cases hmem : stable_id lst.site lst.url ∈ st.seen
  · simp [hmem]
  · simp [hmem]

/-! ## C1: at-most-once processing per listing identity -/

/-- C1: a listing whose identity is already in the ledger is skipped with no
effect at all (no image fetch, no notification, no state change); after any
listing is processed its identity is in the ledger whether or not it
matched; and processing the same listing a second time is a no-op, so the
matcher runs at most once per listing identity. -/
theorem listing_processed_at_most_once (env : MatchEnv) (webhook : String) (threshold : Nat)
    (refs : List Fingerprint) (st : ScanState) (lst : Listing) :
    (stable_id lst.site lst.url ∈ st.seen →
      processListing env webhook threshold refs st lst = st) ∧
    stable_id lst.site lst.url ∈ (processListing env webhook threshold refs st lst).seen ∧
    processListing env webhook threshold refs
        (processListing env webhook threshold refs st lst) lst =
      processListing env webhook threshold refs st lst := by
  refine ⟨processListing_skip env webhook threshold refs st lst, 
    processListing_marks env webhook threshold refs st lst,
    processListing_skip env webhook threshold refs _ lst
      (processListing_marks env webhook threshold refs st lst)⟩

/-- Witness for C1 at a concrete state whose ledger holds the identity of
the incoming listing: processing leaves the state untouched — no fetch and
no notification events appear — and reprocessing an unseen listing is also
a no-op the second time. -/
theorem listing_processed_at_most_once_witness :
    processListing
      ⟨fun _ => FetchOutcome.exn "net down", fun _ => DecodeOutcome.fail "bad",
        fun _ => PostOutcome.resp 204 ""⟩ "https://hook" 8 [0]
      ⟨[stable_id "Grailed" "https://g/1"], []⟩
      ⟨"Grailed", "title", "https://g/1", ["https://img"]⟩ =
      ⟨[stable_id "Grailed" "https://g/1"], []⟩ := by
  exact (listing_processed_at_most_once
    ⟨fun _ => FetchOutcome.exn "net down", fun _ => DecodeOutcome.fail "bad",
      fun _ => PostOutcome.resp 204 ""⟩ "https://hook" 8 [0]
    ⟨[stable_id "Grailed" "https://g/1"], []⟩
    ⟨"Grailed", "title", "https://g/1", ["https://img"]⟩).1 (List.mem_cons_self _ _)

/-! ## Helper lemmas: the matcher fold -/

lemma hamming64_le_64 (a b : Fingerprint) : hamming64 a b ≤ 64 := by
  have := List.length_filter_le (fun i => a.testBit i != b.testBit i) (List.range 64)
  simpa [hamming64] using this

lemma updateBest_nil (ph : Fingerprint) (u : String) (acc : MatchAcc) :
    updateBest [] ph u acc = acc := rfl

lemma updateBest_cons (s : Fingerprint) (rs : List Fingerprint) (ph : Fingerprint) (u : String)
    (acc : MatchAcc) :
    updateBest (s :: rs) ph u acc =
      updateBest rs ph u (if hamming64 ph s < acc.best_dist then ⟨hamming64 ph s, some u⟩ else acc) :=
  rfl

lemma updateBest_dist_le (refs : List Fingerprint) (ph : Fingerprint) (u : String) :
    ∀ acc : MatchAcc, (updateBest refs ph u acc).best_dist ≤ acc.best_dist := by
  induction refs with
  | nil => intro acc; rw [updateBest_nil]
  | cons s rs ih =>
    intro acc
    rw [updateBest_cons]
    by_cases h : hamming64 ph s < acc.best_dist
    · rw [if_pos h]
      exact le_trans (ih _) (le_of_lt h)
    · rw [if_neg h]
      exact ih acc

lemma updateBest_dist_le_ref (refs : List Fingerprint) (ph : Fingerprint) (u : String) :
    ∀ (acc : MatchAcc) (r : Fingerprint), r ∈ refs →
      (updateBest refs ph u acc).best_dist ≤ hamming64 ph r := by
  induction refs with
  | nil => intro acc r hr; cases hr
  | cons s rs ih =>
    intro acc r hr
    rw [updateBest_cons]
    rcases List.mem_cons.mp hr with hEq | hMem
    · subst hEq
      by_cases h : hamming64 ph r < acc.best_dist
      · rw [if_pos h]
        exact updateBest_dist_le rs ph u _
      · rw [if_neg h]
        exact le_trans (updateBest_dist_le rs ph u acc) (le_of_not_lt h)
    · exact ih _ r hMem

lemma updateBest_achieved (refs : List Fingerprint) (ph : Fingerprint) (u : String) :
    ∀ acc : MatchAcc, updateBest refs ph u acc = acc ∨
      ∃ r ∈ refs, updateBest refs ph u acc = ⟨hamming64 ph r, some u⟩ := by
  induction refs with
  | nil => intro acc; exact Or.inl rfl
  | cons s rs ih =>
    intro acc
    rw [updateBest_cons]
    by_cases h : hamming64 ph s < acc.best_dist
    · rw [if_pos h]
      rcases ih ⟨hamming64 ph s, some u⟩ with hsame | ⟨r, hr, hach⟩
      · exact Or.inr ⟨s, List.mem_cons_self s rs, hsame⟩
      · exact Or.inr ⟨r, List.mem_cons_of_mem s hr, hach⟩
    · rw [if_neg h]
      rcases ih acc with hsame | ⟨r, hr, hach⟩
      · exact Or.inl hsame
      · exact Or.inr ⟨r, List.mem_cons_of_mem s hr, hach⟩

lemma updateBest_isSome (refs : List Fingerprint) (ph : Fingerprint) (u : String)
    (acc : MatchAcc) (h : acc.best_img.isSome) : (updateBest refs ph u acc).best_img.isSome := by
  rcases updateBest_achieved refs ph u acc with hsame | ⟨r, _, hach⟩
  · rw [hsame]; exact h
  · rw [hach]; rfl

lemma updateBest_some_of_gt (refs : List Fingerprint) (ph : Fingerprint) (u : String)
    (acc : MatchAcc) (hrefs : refs ≠ []) (hgt : 64 < acc.best_dist) :
    (updateBest refs ph u acc).best_img.isSome := by
  cases refs with
  | nil => exact absurd rfl hrefs
  | cons s rs =>
    have hlt : hamming64 ph s < acc.best_dist := lt_of_le_of_lt (hamming64_le_64 ph s) hgt
    rw [updateBest_cons, if_pos hlt]
    exact updateBest_isSome rs ph u _ rfl

lemma checkImage_none (env : MatchEnv) (refs : List Fingerprint) (acc : MatchAcc) (u : String)
    (h : candHash env u = none) : checkImage env refs acc u = acc := by
  simp [checkImage, h]

lemma checkImage_some (env : MatchEnv) (refs : List Fingerprint) (acc : MatchAcc) (u : String)
    (ph : Fingerprint) (h : candHash env u = some ph) :
    checkImage env refs acc u = updateBest refs ph u acc := by
  simp [checkImage, h]

lemma checkImage_dist_le (env : MatchEnv) (refs : List Fingerprint) (acc : MatchAcc) (u : String) :
    (checkImage env refs acc u).best_dist ≤ acc.best_dist := by
  cases h : candHash env u with
  | none => rw [checkImage_none env refs acc u h]
  | some ph =>
    rw [checkImage_some env refs acc u ph h]
    exact updateBest_dist_le refs ph u acc

lemma checkImage_isSome (env : MatchEnv) (refs : List Fingerprint) (acc : MatchAcc) (u : String)
    (h : acc.best_img.isSome) : (checkImage env refs acc u).best_img.isSome := by
  cases hc : candHash env u with
  | none => rw [checkImage_none env refs acc u hc]; exact h
  | some ph =>
    rw [checkImage_some env refs acc u ph hc]
    exact updateBest_isSome refs ph u acc h

lemma checkImage_inv (env : MatchEnv) (refs : List Fingerprint) (acc : MatchAcc) (u : String)
    (h : acc.best_img = none → 64 < acc.best_dist) :
    (checkImage env refs acc u).best_img = none → 64 < (checkImage env refs acc u).best_dist := by
  cases hc : candHash env u with
  | none => rw [checkImage_none env refs acc u hc]; exact h
  | some ph =>
    rw [checkImage_some env refs acc u ph hc]
    intro hnone
    rcases updateBest_achieved refs ph u acc with hsame | ⟨r, _, hach⟩
    · rw [hsame] at hnone ⊢
      exact h hnone
    · rw [hach] at hnone
      cases hnone

lemma foldImages_dist_le (env : MatchEnv) (refs : List Fingerprint) :
    ∀ (l : List String) (acc : MatchAcc),
      (l.foldl (checkImage env refs) acc).best_dist ≤ acc.best_dist := by
  intro l
  induction l with
  | nil => intro acc; exact le_refl _
  | cons v vs ih =>
    intro acc
    rw [List.foldl_cons]
    exact le_trans (ih _) (checkImage_dist_le env refs acc v)

lemma foldImages_dist_le_ref (env : MatchEnv) (refs : List Fingerprint) :
    ∀ (l : List String) (acc : MatchAcc) (u : String), u ∈ l →
      ∀ ph : Fingerprint, candHash env u = some ph → ∀ r ∈ refs,
      (l.foldl (checkImage env refs) acc).best_dist ≤ hamming64 ph r := by
  intro l
  induction l with
  | nil => intro acc u hu; cases hu
  | cons v vs ih =>
    intro acc u hu ph hph r hr
    rw [List.foldl_cons]
    rcases List.mem_cons.mp hu with hEq | hMem
    · subst hEq
      have hstep : (checkImage env refs acc u).best_dist ≤ hamming64 ph r := by
        rw [checkImage_some env refs acc u ph hph]
        exact updateBest_dist_le_ref refs ph u acc r hr
      exact le_trans (foldImages_dist_le env refs vs _) hstep
    · exact ih _ u hMem ph hph r hr

lemma checkImage_achieved (env : MatchEnv) (refs : List Fingerprint) (acc : MatchAcc) (u : String) :
    checkImage env refs acc u = acc ∨
      ∃ ph : Fingerprint, candHash env u = some ph ∧
        ∃ r ∈ refs, checkImage env refs acc u = ⟨hamming64 ph r, some u⟩ := by
  cases h : candHash env u with
  | none => exact Or.inl (checkImage_none env refs acc u h)
  | some ph =>
    rcases updateBest_achieved refs ph u acc with hsame | ⟨r, hr, hach⟩
    · exact Or.inl ((checkImage_some env refs acc u ph h).trans hsame)
    · exact Or.inr ⟨ph, rfl, r, hr, (checkImage_some env refs acc u ph h).trans hach⟩

lemma foldImages_achieved (env : MatchEnv) (refs : List Fingerprint) :
    ∀ (l : List String) (acc : MatchAcc),
      l.foldl (checkImage env refs) acc = acc ∨
        ∃ u ∈ l, ∃ ph : Fingerprint, candHash env u = some ph ∧
          ∃ r ∈ refs, l.foldl (checkImage env refs) acc = ⟨hamming64 ph r, some u⟩ := by
  intro l
  induction l with
  | nil => intro acc; exact Or.inl rfl
  | cons v vs ih =>
    intro acc
    rw [List.foldl_cons]
    rcases ih (checkImage env refs acc v) with hsame | ⟨u, hu, ph, hph, r, hr, hach⟩
    · rw [hsame]
      rcases checkImage_achieved env refs acc v with hsame2 | ⟨ph, hph, r, hr, hach2⟩
      · exact Or.inl hsame2
      · exact Or.inr ⟨v, List.mem_cons_self v vs, ph, hph, r, hr, hach2⟩
    · exact Or.inr ⟨u, List.mem_cons_of_mem v hu, ph, hph, r, hr, hach⟩

lemma foldImages_isSome (env : MatchEnv) (refs : List Fingerprint) :
    ∀ (l : List String) (acc : MatchAcc), acc.best_img.isSome →
      (l.foldl (checkImage env refs) acc).best_img.isSome := by
  intro l
  induction l with
  | nil => intro acc h; exact h
  | cons v vs ih =>
    intro acc h
    rw [List.foldl_cons]
    exact ih _ (checkImage_isSome env refs acc v h)

lemma foldImages_some_of_decodable (env : MatchEnv) (refs : List Fingerprint)
    (hrefs : refs ≠ []) :
    ∀ (l : List String) (acc : MatchAcc), (acc.best_img = none → 64 < acc.best_dist) →
      ∀ u ∈ l, ∀ ph : Fingerprint, candHash env u = some ph →
      (l.foldl (checkImage env refs) acc).best_img.isSome := by
  intro l
  induction l with
  | nil => intro acc _ u hu; cases hu
  | cons v vs ih =>
    intro acc hinv u hu ph hph
    rw [List.foldl_cons]
    rcases List.mem_cons.mp hu with hEq | hMem
    · subst hEq
      have hsome : (checkImage env refs acc u).best_img.isSome := by
        rw [checkImage_some env refs acc u ph hph]
        cases himg : acc.best_img with
        | some x => exact updateBest_isSome refs ph u acc (by rw [himg]; rfl)
        | none => exact updateBest_some_of_gt refs ph u acc hrefs (hinv himg)
      exact foldImages_isSome env refs vs _ hsome
    · exact ih _ (checkImage_inv env refs acc v hinv) u hMem ph hph

lemma foldImages_const_of_all_none (env : MatchEnv) (refs : List Fingerprint) :
    ∀ (l : List String) (acc : MatchAcc), (∀ u ∈ l, candHash env u = none) →
      l.foldl (checkImage env refs) acc = acc := by
  intro l
  induction l with
  | nil => intro acc _; rfl
  | cons v vs ih =>
    intro acc hall
    rw [List.foldl_cons, checkImage_none env refs acc v (hall v (List.mem_cons_self v vs))]
    exact ih acc (fun u hu => hall u (List.mem_cons_of_mem v hu))

lemma checkImages_none_iff (env : MatchEnv) (refs : List Fingerprint) (urls : List String)
    (hrefs : refs ≠ []) :
    (checkImages env refs urls).best_img = none ↔
      ∀ u ∈ urls.take 3, candHash env u = none := by
  constructor
  · intro hnone u hu
    by_contra hne
    rcases Option.ne_none_iff_exists'.mp hne with ⟨ph, hph⟩
    have hsome := foldImages_some_of_decodable env refs hrefs (urls.take 3) ⟨999, none⟩
      (fun _ => by decide) u hu ph hph
    rw [show (urls.take 3).foldl (checkImage env refs) ⟨999, none⟩ = checkImages env refs urls
      from rfl, hnone] at hsome
    cases hsome
  · intro hall
    show ((urls.take 3).foldl (checkImage env refs) ⟨999, none⟩).best_img = none
    rw [foldImages_const_of_all_none env refs (urls.take 3) ⟨999, none⟩ hall]

/-! ## C4: best-match selection -/

/-- C4: the match loop over the first `maxImagesToCheck = 3` candidate image
URLs tracks the global minimum Hamming distance to every reference
fingerprint: the final best distance is a lower bound for the distance of
every decodable candidate to every reference, and (unless nothing was
decodable against a nonempty reference set) the final accumulator is exactly
some candidate's distance to some reference with that candidate's URL
recorded.  With candidate distances [12, 5, 9] and threshold 8 the reported
match has distance 5 and the second URL (see the witness). -/
theorem best_match_global_minimum (env : MatchEnv) (refs : List Fingerprint)
    (urls : List String) :
    (∀ u ∈ urls.take 3, ∀ ph : Fingerprint, candHash env u = some ph →
        ∀ r ∈ refs, (checkImages env refs urls).best_dist ≤ hamming64 ph r) ∧
    (checkImages env refs urls = ⟨999, none⟩ ∨
      ∃ u ∈ urls.take 3, ∃ ph : Fingerprint, candHash env u = some ph ∧
        ∃ r ∈ refs, checkImages env refs urls = ⟨hamming64 ph r, some u⟩) := by
  constructor
  · intro u hu ph hph r hr
    exact foldImages_dist_le_ref env refs (urls.take 3) ⟨999, none⟩ u hu ph hph r hr
  · exact foldImages_achieved env refs (urls.take 3) ⟨999, none⟩

/-- Witness for C4 at the spec's concrete instance: three candidates whose
nearest-reference distances are [12, 5, 9]; the loop reports distance 5 with
the second URL, and the theorem's lower bound applies at that candidate. -/
theorem best_match_global_minimum_witness :
    checkImages c4env [0] ["https://a/1", "https://a/2", "https://a/3"] =
      ⟨5, some "https://a/2"⟩ ∧
    hamming64 4095 0 = 12 ∧ hamming64 31 0 = 5 ∧ hamming64 511 0 = 9 ∧
    (checkImages c4env [0] ["https://a/1", "https://a/2", "https://a/3"]).best_dist ≤
      hamming64 31 0 := by
  refine ⟨by decide, by decide, by decide, by decide, ?_⟩
  exact (best_match_global_minimum c4env [0] ["https://a/1", "https://a/2", "https://a/3"]).1
    "https://a/2" (by decide) 31 (by decide) 0 (by decide)

/-! ## C5: threshold boundary and no-match conditions -/

/-- C5: for an unseen listing against a nonempty reference set, the scan
loop raises a match exactly when some of its first three candidate images
decoded and the minimum distance is at most the threshold — so a candidate
at distance equal to the threshold matches, one at threshold + 1 does not,
and a listing with no decodable candidate yields no match; `is_match`
likewise accepts exactly the fingerprints within the threshold of some
reference. -/
theorem match_condition_iff (env : MatchEnv) (webhook : String) (threshold : Nat)
    (refs : List Fingerprint) (seen : List String) (lst : Listing)
    (hseen : stable_id lst.site lst.url ∉ seen) (hrefs : refs ≠ []) :
    ((processListing env webhook threshold refs ⟨seen, []⟩ lst).events.any isAlertEvent = true ↔
      ((∃ u ∈ lst.image_urls.take 3, ∃ ph : Fingerprint, candHash env u = some ph) ∧
        (checkImages env refs lst.image_urls).best_dist ≤ threshold)) ∧
    (∀ (c : Fingerprint) (t : Nat), is_match c refs t = true ↔
        ∃ r ∈ refs, hamming64 c r ≤ t) := by
  constructor
  · have hfetch : ∀ (l : List String), ∀ x ∈ List.take 3 (List.map Event.fetch l),
        isAlertEvent x = false := by
      intro l x hx
      rcases List.mem_map.mp (List.take_subset 3 _ hx) with ⟨u, _, hh⟩
      rw [← hh]
      rfl
    have hkey :
        (processListing env webhook threshold refs ⟨seen, []⟩ lst).events.any isAlertEvent = true ↔
          ((checkImages env refs lst.image_urls).best_img.isSome = true ∧
            (checkImages env refs lst.image_urls).best_dist ≤ threshold) := by
      unfold processListing
      rw [if_neg hseen]
      cases hacc : (checkImages env refs lst.image_urls).best_img with
      | none =>
        simp [hacc, List.any_append]
        exact hfetch lst.image_urls
      | some imgUrl =>
        by_cases hth : (checkImages env refs lst.image_urls).best_dist ≤ threshold
        · simp [hacc, hth, List.any_append, isAlertEvent]
        · simp [hacc, hth, List.any_append]
          exact hfetch lst.image_urls
    have hiff : (checkImages env refs lst.image_urls).best_img.isSome = true ↔
        (∃ u ∈ lst.image_urls.take 3, ∃ ph : Fingerprint, candHash env u = some ph) := by
      rw [← Option.ne_none_iff_isSome, Ne,
        checkImages_none_iff env refs lst.image_urls hrefs]
      push_neg
      constructor
      · rintro ⟨u, hu, hne⟩
        exact ⟨u, hu, Option.ne_none_iff_exists'.mp hne⟩
      · rintro ⟨u, hu, ph, hph⟩
        refine ⟨u, hu, ?_⟩
        rw [hph]
        exact fun hh => Option.noConfusion hh
    rw [hkey, hiff]
  · intro c t
    simp [is_match, List.any_eq_true]

/-- Witness for C5 at concrete inputs: best distance 5 matches at threshold
5 (boundary) and fails at threshold 4 (one above the distance), and a
listing with no candidate image raises no match at all. -/
theorem match_condition_iff_witness :
    (processListing c4env "https://hook" 5 [0] ⟨[], []⟩ threeImgListing).events.any
        isAlertEvent = true ∧
    (processListing c4env "https://hook" 4 [0] ⟨[], []⟩ threeImgListing).events.any
        isAlertEvent = false ∧
    (processListing c4env "https://hook" 8 [0] ⟨[], []⟩ noImgListing).events.any
        isAlertEvent = false ∧
    is_match 31 [0] 5 = true ∧ is_match 31 [0] 4 = false := by
  refine ⟨?_, by decide, by decide, ?_, by decide⟩
  · exact (match_condition_iff c4env "https://hook" 5 [0] [] threeImgListing
      (List.not_mem_nil _) (by decide)).1.mpr
      ⟨⟨"https://a/2", by decide, 31, by decide⟩, by decide⟩
  · exact (match_condition_iff c4env "https://hook" 5 [0] [] threeImgListing
      (List.not_mem_nil _) (by decide)).2 31 5 |>.mpr ⟨0, by decide, by decide⟩

/-! ## Helper lemmas: the pass aborts on a scraper exception -/

lemma gatherListings_error_aux (scrape : SiteKey → String → Except String (List Listing))
    (q : String) :
    ∀ (l1 : List SiteKey) (bad : SiteKey) (l2 : List SiteKey) (e : String) (acc : List Listing),
      (∀ s ∈ l1, ∃ v, scrape s q = Except.ok v) → scrape bad q = Except.error e →
      (l1 ++ bad :: l2).foldlM (fun acc s => do
        let l ← scrape s q
        pure (acc ++ l)) acc = Except.error e := by
  intro l1
  induction l1 with
  | nil =>
    intro bad l2 e acc _ hbad
    simp only [List.nil_append, List.foldlM_cons, hbad]
    rfl
  | cons s rest ih =>
    intro bad l2 e acc hok hbad
    rcases hok s (List.mem_cons_self s rest) with ⟨v, hv⟩
    rw [List.cons_append, List.foldlM_cons]
    simp only [hv]
    exact ih bad l2 e (acc ++ v) (fun s2 hs2 => hok s2 (List.mem_cons_of_mem s hs2)) hbad

lemma gatherListings_error (scrape : SiteKey → String → Except String (List Listing))
    (q : String) (l1 : List SiteKey) (bad : SiteKey) (l2 : List SiteKey) (e : String)
    (hok : ∀ s ∈ l1, ∃ v, scrape s q = Except.ok v) (hbad : scrape bad q = Except.error e) :
    gatherListings scrape (l1 ++ bad :: l2) q = Except.error e :=
  gatherListings_error_aux scrape q l1 bad l2 e [] hok hbad

lemma runQuery_error (scrape : SiteKey → String → Except String (List Listing)) (env : MatchEnv)
    (cfg : Config) (refs : List Fingerprint) (st : ScanState) (q : String) (e : String)
    (hg : gatherListings scrape (siteCalls cfg) q = Except.error e) :
    runQuery scrape env cfg refs st q = Except.error e := by
  simp [runQuery, hg]

lemma scanQueries_abort (scrape : SiteKey → String → Except String (List Listing))
    (env : MatchEnv) (cfg : Config) (refs : List Fingerprint) (q : String) (qs : List String)
    (st : ScanState) (e : String) (hq : pyStrip q ≠ "")
    (hrun : runQuery scrape env cfg refs st (pyStrip q) = Except.error e) :
    scanQueries scrape env cfg refs (q :: qs) st = (st, some e) := by
  rw [scanQueries]
  simp only [if_neg hq, hrun]

/-! ## C3: a scraper exception aborts the whole pass -/

/-- C3 (amended): the per-site scraper calls of scan_once are not wrapped in
any isolated failure handling — when one site-keyword pair raises, the
exception propagates and aborts the entire current pass: no listing of that
query (including those of sites that already succeeded) and no later query
is matched or notified, the state is exactly as before the failing query,
and nothing is persisted.  The only handler is in the main loop, which logs
`[ERREUR]` and continues to the next pass with the in-memory state. -/
theorem site_failure_aborts_pass
    (scrape : SiteKey → String → Except String (List Listing)) (env : MatchEnv) (cfg : Config)
    (refs : List Fingerprint) (seen0 : List String) (q : String) (qs : List String)
    (l1 l2 : List SiteKey) (bad : SiteKey) (e : String)
    (horder : siteCalls cfg = l1 ++ bad :: l2)
    (hok : ∀ s ∈ l1, ∃ v, scrape s (pyStrip q) = Except.ok v)
    (hbad : scrape bad (pyStrip q) = Except.error e)
    (hq : pyStrip q ≠ "")
    (hcq : cfg.queries = q :: qs) :
    scan_once scrape env cfg refs seen0 = ⟨⟨seen0, []⟩, some e, none⟩ ∧
    main_iter scrape env cfg refs seen0 =
      (⟨seen0, [Event.logline ("[ERREUR] " ++ e)]⟩, none) := by
  have hgather : gatherListings scrape (siteCalls cfg) (pyStrip q) = Except.error e := by
    rw [horder]
    exact gatherListings_error scrape (pyStrip q) l1 bad l2 e hok hbad
  have hrun := runQuery_error scrape env cfg refs ⟨seen0, []⟩ (pyStrip q) e hgather
  have hscan : scanQueries scrape env cfg refs cfg.queries ⟨seen0, []⟩ =
      (⟨seen0, []⟩, some e) := by
    rw [hcq]
    exact scanQueries_abort scrape env cfg refs q qs ⟨seen0, []⟩ e hq hrun
  have honce : scan_once scrape env cfg refs seen0 = ⟨⟨seen0, []⟩, some e, none⟩ := by
    unfold scan_once
    rw [hscan]
  refine ⟨honce, ?_⟩
  unfold main_iter
  rw [honce]
  simp

/-- Witness for C3's amended behaviour at concrete inputs: with mercari_jp
succeeding (empty page) and mercari_us raising, the pass is aborted — the
grailed listing that would have matched is never processed, the state is
unchanged, nothing is persisted, and the main loop logs the error. -/
theorem site_failure_aborts_pass_witness :
    scan_once failingUsScrape c4env passCfg [0] [] =
      ⟨⟨[], []⟩, some "mercari_us: markup changed", none⟩ ∧
    main_iter failingUsScrape c4env passCfg [0] [] =
      (⟨[], [Event.logline "[ERREUR] mercari_us: markup changed"]⟩, none) := by
  have h := site_failure_aborts_pass failingUsScrape c4env passCfg [0] [] "tee" []
    [SiteKey.mercari_jp] [SiteKey.bunjang_global, SiteKey.zozoused, SiteKey.grailed]
    SiteKey.mercari_us "mercari_us: markup changed"
    (by decide)
    (by
      intro s hs
      rcases List.mem_cons.mp hs with hEq | hMem
      · subst hEq
        exact ⟨[], rfl⟩
      · cases hMem)
    rfl
    (by decide)
    rfl
  exact h

/-- Counterexample for C3 as stated: under the same oracle the pass produces
no events at all — in particular grailed, which follows mercari_us in the
site order and holds a listing that demonstrably matches and alerts when
processed, is never reached in that pass. -/
theorem site_failure_aborts_pass_cex :
    (scan_once failingUsScrape c4env passCfg [0] []).state.events = [] ∧
    (scan_once failingUsScrape c4env passCfg [0] []).failure =
      some "mercari_us: markup changed" ∧
    (scan_once failingUsScrape c4env passCfg [0] []).persisted = none ∧
    failingUsScrape SiteKey.grailed "tee" = Except.ok [threeImgListing] ∧
    (processListing c4env "https://hook" 8 [0] ⟨[], []⟩ threeImgListing).events.any
      isAlertEvent = true := by
  refine ⟨rfl, rfl, rfl, rfl, by decide⟩

/-! ## C7: navigation carries no retry -/

/-- C7 (amended): every scraper performs exactly one `page.goto` per call —
the navigation trace of a scrape is always the single attempt, with no
retry, no backoff and no code-level timeout argument — and a navigation
failure propagates as the scraper's exception, which (as in C3) aborts the
whole pass; the pass is re-attempted only at the next scan interval. -/
theorem navigation_single_attempt (b : Browser) (q : String) (limit : Nat) :
    (∀ url : String, (scrape_site b url limit).1 = [NavEvent.goto url]) ∧
    (scrape_grailed b q limit).1 = [NavEvent.goto (grailed_search_url q)] ∧
    (∀ (url e : String), b.nav url = Except.error e →
      (scrape_site b url limit).2 = Except.error e) ∧
    (∀ (env : MatchEnv) (cfg : Config) (refs : List Fingerprint) (st : ScanState)
        (q2 : String) (qs : List String) (e : String), pyStrip q2 ≠ "" →
      runQuery (scrapeOf b cfg) env cfg refs st (pyStrip q2) = Except.error e →
      scanQueries (scrapeOf b cfg) env cfg refs (q2 :: qs) st = (st, some e)) := by
  refine ⟨fun url => rfl, rfl, ?_, ?_⟩
  · intro url e he
    unfold scrape_site
    simp [he]
  · intro env cfg refs st q2 qs e hq hrun
    exact scanQueries_abort (scrapeOf b cfg) env cfg refs q2 qs st e hq hrun

/-- Witness for C7 at a concrete browser whose mercari_jp navigation times
out: the navigation error makes the query loop abort with the state
untouched. -/
theorem navigation_single_attempt_witness :
    (scrape_site timeoutJpBrowser (mercari_jp_search_url "tee") 25).2 =
      Except.error "net::ERR_TIMED_OUT" ∧
    scanQueries (scrapeOf timeoutJpBrowser passCfg) c4env passCfg [0] ["tee"] ⟨[], []⟩ =
      (⟨[], []⟩, some "net::ERR_TIMED_OUT") := by
  constructor
  · exact (navigation_single_attempt timeoutJpBrowser "tee" 25).2.2.1
      (mercari_jp_search_url "tee") "net::ERR_TIMED_OUT" rfl
  · exact (navigation_single_attempt timeoutJpBrowser "tee" 25).2.2.2
      c4env passCfg [0] ⟨[], []⟩ "tee" [] "net::ERR_TIMED_OUT" (by decide) rfl

/-- Counterexample for C7 as stated: the failing mercari_jp navigation is
attempted exactly once (no retry, no backoff), its error propagates, and the
whole pass — not just the site-keyword pair — is abandoned, although
grailed, later in the site order, would have returned a listing. -/
theorem navigation_single_attempt_cex :
    (scrape_mercari_jp timeoutJpBrowser "tee" 25).1 =
      [NavEvent.goto (mercari_jp_search_url "tee")] ∧
    (scrape_mercari_jp timeoutJpBrowser "tee" 25).2 = Except.error "net::ERR_TIMED_OUT" ∧
    scan_once (scrapeOf timeoutJpBrowser passCfg) c4env passCfg [0] [] =
      ⟨⟨[], []⟩, some "net::ERR_TIMED_OUT", none⟩ ∧
    scrapeOf timeoutJpBrowser passCfg SiteKey.grailed "tee" = Except.ok [threeImgListing] := by
  exact ⟨rfl, rfl, rfl, rfl⟩

/-! ## Helper lemmas: save_seen sorts and truncates -/

lemma replicate_lex_lt (c : Char) : ∀ i j : Nat, i < j →
    List.Lex (fun a b : Char => a < b) (List.replicate i c) (List.replicate j c) := by
  intro i
  induction i with
  | zero =>
    intro j hj
    cases j with
    | zero => omega
    | succ k =>
      rw [List.replicate_succ]
      exact List.Lex.nil
  | succ i ih =>
    intro j hj
    cases j with
    | zero => omega
    | succ k =>
      rw [List.replicate_succ, List.replicate_succ c k]
      exact List.Lex.cons (ih k (by omega))

lemma idOfLen_strictMono : StrictMono idOfLen := by
  intro i j hij
  rw [String.lt_iff_toList_lt]
  exact replicate_lex_lt 'a' (i + 1) (j + 1) (by omega)

lemma mergeSort_sorted_le (l : List String) :
    List.Sorted (fun a b : String => a ≤ b) (l.mergeSort (fun a b => decide (a ≤ b))) := by
  have h := @List.sorted_mergeSort String (fun a b => decide (a ≤ b))
    (fun a b c hab hbc => by
      rw [decide_eq_true_eq] at hab hbc ⊢
      exact le_trans hab hbc)
    (fun a b => by
      rcases le_total a b with h | h
      · simp [h]
      · simp [h])
    l
  exact h.imp (fun hab => of_decide_eq_true hab)

lemma sortedLedger_sorted : List.Sorted (fun a b : String => a ≤ b) sortedLedger := by
  have hlt : List.Pairwise (fun a b : String => a < b) sortedLedger :=
    List.Pairwise.map idOfLen (fun a b hab => idOfLen_strictMono hab)
      (List.pairwise_lt_range 30001)
  exact hlt.imp (fun hab => le_of_lt hab)

lemma mergeSort_insertionLedger :
    insertionLedger.mergeSort (fun a b => decide (a ≤ b)) = sortedLedger := by
  refine @List.eq_of_perm_of_sorted String (fun a b => a ≤ b) inferInstance _ _ ?_ ?_ ?_
  · exact (List.mergeSort_perm insertionLedger _).trans (List.reverse_perm sortedLedger)
  · exact mergeSort_sorted_le insertionLedger
  · exact sortedLedger_sorted

lemma sortedLedger_length : sortedLedger.length = 30001 := by
  simp [sortedLedger]

lemma save_seen_insertionLedger : save_seen insertionLedger = sortedLedger.drop 1 := by
  show (insertionLedger.mergeSort (fun a b => decide (a ≤ b))).drop
    ((insertionLedger.mergeSort (fun a b => decide (a ≤ b))).length - SEEN_CAP) =
    sortedLedger.drop 1
  rw [mergeSort_insertionLedger, sortedLedger_length]
  norm_num [SEEN_CAP]

lemma sortedLedger_drop_one :
    sortedLedger.drop 1 = List.map (fun i => idOfLen (i + 1)) (List.range 30000) := by
  show ((List.range 30001).map idOfLen).drop 1 = _
  rw [List.range_succ_eq_map, List.map_cons, List.drop_succ_cons, List.drop_zero,
    List.map_map]
  rfl

lemma newest_not_in_save : idOfLen 0 ∉ save_seen insertionLedger := by
  rw [save_seen_insertionLedger, sortedLedger_drop_one]
  intro hmem
  rcases List.mem_map.mp hmem with ⟨i, _, heq⟩
  have := idOfLen_strictMono.injective heq
  omega

lemma oldest_in_save : idOfLen 30000 ∈ save_seen insertionLedger := by
  rw [save_seen_insertionLedger, sortedLedger_drop_one]
  exact List.mem_map.mpr ⟨29999, List.mem_range.mpr (by omega), rfl⟩

lemma insertionLedger_head : insertionLedger.head? = some (idOfLen 30000) := by
  show sortedLedger.reverse.head? = _
  rw [List.head?_reverse]
  show ((List.range 30001).map idOfLen).getLast? = _
  rw [List.range_succ, List.map_append]
  exact List.getLast?_concat _

lemma insertionLedger_last : insertionLedger.getLast? = some (idOfLen 0) := by
  show sortedLedger.reverse.getLast? = _
  rw [List.getLast?_reverse]
  show ((List.range 30001).map idOfLen).head? = _
  rw [List.range_succ_eq_map, List.map_cons]
  rfl

lemma insertionLedger_nodup : insertionLedger.Nodup := by
  show sortedLedger.reverse.Nodup
  rw [List.nodup_reverse]
  exact List.Nodup.map idOfLen_strictMono.injective (List.nodup_range 30001)

lemma insertionLedger_length : insertionLedger.length = SEEN_CAP + 1 := by
  show sortedLedger.reverse.length = SEEN_CAP + 1
  rw [List.length_reverse, sortedLedger_length]
  norm_num [SEEN_CAP]

lemma newest_in_ledger : idOfLen 0 ∈ insertionLedger := by
  show idOfLen 0 ∈ sortedLedger.reverse
  rw [List.mem_reverse]
  exact List.mem_map.mpr ⟨0, List.mem_range.mpr (by omega), rfl⟩

/-! ## C2: ledger capacity eviction order -/

/-- C2 (amended): `save_seen` persists `sorted(list(seen))[-30000:]` — the
ledger entries in lexicographically sorted key order with all but the
SEEN_CAP largest dropped.  So the persisted cardinality is
min(cardinality, 30000), every persisted entry comes from the ledger, and
every evicted entry is lexicographically at most every retained one —
eviction is by sorted-key order, not by insertion order. -/
theorem save_seen_keeps_sorted_largest (l : List String) :
    (save_seen l).length = min l.length SEEN_CAP ∧
    (∀ x ∈ save_seen l, x ∈ l) ∧
    (∀ y ∈ l, y ∉ save_seen l → ∀ x ∈ save_seen l, y ≤ x) := by
  have hsorted := mergeSort_sorted_le l
  have hperm := List.mergeSort_perm l (fun a b => decide (a ≤ b))
  have hlen : (l.mergeSort (fun a b => decide (a ≤ b))).length = l.length := hperm.length_eq
  refine ⟨?_, ?_, ?_⟩
  · show ((l.mergeSort (fun a b => decide (a ≤ b))).drop
      ((l.mergeSort (fun a b => decide (a ≤ b))).length - SEEN_CAP)).length = _
    rw [List.length_drop, hlen]
    omega
  · intro x hx
    have hx2 : x ∈ l.mergeSort (fun a b => decide (a ≤ b)) :=
      List.drop_subset _ _ hx
    exact hperm.mem_iff.mp hx2
  · intro y hy hynot x hx
    have hys : y ∈ l.mergeSort (fun a b => decide (a ≤ b)) := hperm.mem_iff.mpr hy
    have hys2 : y ∈ (l.mergeSort (fun a b => decide (a ≤ b))).take
        ((l.mergeSort (fun a b => decide (a ≤ b))).length - SEEN_CAP) ++
        (l.mergeSort (fun a b => decide (a ≤ b))).drop
        ((l.mergeSort (fun a b => decide (a ≤ b))).length - SEEN_CAP) := by
      rw [List.take_append_drop]
      exact hys
    have hytake : y ∈ (l.mergeSort (fun a b => decide (a ≤ b))).take
        ((l.mergeSort (fun a b => decide (a ≤ b))).length - SEEN_CAP) := by
      rcases List.mem_append.mp hys2 with h | h
      · exact h
      · exact absurd h hynot
    have hpw : List.Pairwise (fun a b : String => a ≤ b)
        ((l.mergeSort (fun a b => decide (a ≤ b))).take
          ((l.mergeSort (fun a b => decide (a ≤ b))).length - SEEN_CAP) ++
         (l.mergeSort (fun a b => decide (a ≤ b))).drop
          ((l.mergeSort (fun a b => decide (a ≤ b))).length - SEEN_CAP)) := by
      rw [List.take_append_drop]
      exact hsorted
    exact (List.pairwise_append.mp hpw).2.2 y hytake x hx

/-- Witness for C2's amended statement at the concrete 30001-entry ledger:
the persisted cardinality is exactly the cap, and the evicted newest entry
is lexicographically below the retained oldest one. -/
theorem save_seen_keeps_sorted_largest_witness :
    (save_seen insertionLedger).length = min insertionLedger.length SEEN_CAP ∧
    idOfLen 0 ≤ idOfLen 30000 := by
  refine ⟨(save_seen_keeps_sorted_largest insertionLedger).1, ?_⟩
  exact (save_seen_keeps_sorted_largest insertionLedger).2.2 (idOfLen 0) newest_in_ledger
    newest_not_in_save (idOfLen 30000) oldest_in_save

/-- Counterexample for C2 as stated: a duplicate-free ledger of SEEN_CAP + 1
identities whose insertion order is the reverse of sorted order.  The claim
demands that the single evicted entry be the oldest-inserted (the head of
the insertion sequence) and that the newest-inserted (its last element) be
retained; `save_seen` does the opposite — it keeps the oldest-inserted
identity and evicts the most recently inserted one. -/
theorem save_seen_evicts_newest : insertionLedger.length = SEEN_CAP + 1 ∧
    insertionLedger.Nodup ∧
    insertionLedger.head? = some (idOfLen 30000) ∧
    insertionLedger.getLast? = some (idOfLen 0) ∧
    idOfLen 0 ∉ save_seen insertionLedger ∧
    idOfLen 30000 ∈ save_seen insertionLedger ∧
    (save_seen insertionLedger).length = SEEN_CAP := by
  refine ⟨insertionLedger_length, insertionLedger_nodup, insertionLedger_head,
    insertionLedger_last, newest_not_in_save, oldest_in_save, ?_⟩
  rw [save_seen_insertionLedger, List.length_drop, sortedLedger_length]
  norm_num [SEEN_CAP]
